import Mathlib

/-!
Shallow embedding of the user-account and session REST service
(Express router with register / login / logout / get-user / patch-user
handlers, a login-check interceptor, and Mongo-backed User and Session
collections).

Modelling conventions:
* A Mongo collection is a Lean list of records; `findOne {field: v}` is
  `List.find?` on that list, `create` appends, `findOneAndRemove` is
  `List.eraseP` (removes the first matching document), `doc.save()`
  rewrites the first document carrying the same id.
* `sha256Hash` is kept abstract as a parameter `hash : String → String`:
  every operation that hashes takes it explicitly.
* JavaScript string truthiness (`!x` is true for `undefined` and `""`)
  is `jsTruthy : Option String → Bool`.
* `Date.now()` is a `Nat` millisecond timestamp passed to each operation
  that reads the clock.
* HTTP status codes are plain naturals (200, 400, 401, 404, 409).
* The PATCH body emptiness test in the source is
  `!req.body || Object.keys(req.body) < 1`.  For a JSON body whose keys
  are drawn from the documented schema {name, email, password}, the
  JavaScript comparison `Object.keys(body) < 1` evaluates to true exactly
  when the key array is empty (an empty array coerces through "" to the
  number 0, and 0 < 1; a non-empty join such as "name" coerces to NaN and
  every NaN comparison is false).  The body is therefore modelled as
  `Option ModifyBody` with three optional fields, and the emptiness test
  holds iff the body is absent or all three fields are absent.
-/

namespace ApiExercise

/-- A document of the Users collection.  The schema file itself is not in
the sources, but every field is fixed by the handlers: `_id` (modelled as
a `Nat`), `name`, `email`, `password` (hex digest string) and `updateAt`
(millisecond timestamp). -/
structure User where
  id : Nat
  name : String
  email : String
  password : String
  updateAt : Nat
  deriving Repr, DecidableEq

/-- A document of the Sessions collection, from the Session schema:
`sessionKey` (unique index), `userId`, `expiredAt` (defaults to creation
time plus seven days). -/
structure Session where
  sessionKey : String
  userId : Nat
  expiredAt : Nat
  deriving Repr, DecidableEq

/-- The persistent state the service reads and writes: both collections. -/
structure AppState where
  users : List User
  sessions : List Session
  deriving Repr, DecidableEq

/-- The PATCH /user request body (schema ModifyUser): three optional
string fields.  `some ""` is a present-but-empty field, `none` an absent
one. -/
structure ModifyBody where
  name : Option String
  email : Option String
  password : Option String
  deriving Repr, DecidableEq

/-- JavaScript truthiness of a possibly-absent string: `undefined` and
the empty string are falsy. -/
def jsTruthy : Option String → Bool
  | none => false
  | some s => !s.isEmpty

/-- The seven-day default lifetime of a session, in milliseconds
(`7*24*60*60*1000` in the Session schema). -/
def sevenDaysMs : Nat := 7 * 24 * 60 * 60 * 1000

/-- Session id generator: `sha256Hash(Date.now().toString())`. -/
def gensessionKey (hash : String → String) (now : Nat) : String :=
  hash (Nat.repr now)

/-- The login-check interceptor.  Reads the Session-Key header; a falsy
header or an unknown key yields `none` (the handler answers 401);
otherwise the owning user id of the found session is attached to the
request.  The stored expiry is never consulted. -/
def checkLoginInterceptor (st : AppState) (sessionKey : Option String) :
    Option Nat :=
  match sessionKey with
  | none => none
  | some k =>
    if k.isEmpty then none
    else
      match st.sessions.find? (fun s => s.sessionKey == k) with
      | none => none
      | some s => some s.userId

/-- POST /register.  Missing or empty name, email or password answers
400; an existing user with the same email answers 409; otherwise a user
with the hashed password is created and the answer is 200.  `newId` is
the id the store assigns to the created document, `now` its creation
timestamp. -/
def register (hash : String → String) (st : AppState)
    (name email password : Option String) (newId now : Nat) :
    Nat × AppState :=
  if !(jsTruthy name && jsTruthy email && jsTruthy password) then (400, st)
  else
    match st.users.find? (fun u => u.email == email.getD "") with
    | some _ => (409, st)
    | none =>
      (200, { st with
        users := st.users ++
          [⟨newId, name.getD "", email.getD "", hash (password.getD ""),
            now⟩] })

/-- POST /login.  Missing or empty email or password answers 400; the
lookup matches email and hashed password simultaneously, and no match
answers 404; on a match a session keyed by `gensessionKey` is created
(expiry defaulted to `now + sevenDaysMs`) and the key is returned. -/
def login (hash : String → String) (st : AppState)
    (email password : Option String) (now : Nat) :
    Nat × Option String × AppState :=
  if !(jsTruthy email && jsTruthy password) then (400, none, st)
  else
    match st.users.find?
        (fun u => u.email == email.getD "" &&
          u.password == hash (password.getD "")) with
    | none => (404, none, st)
    | some u =>
      let k := gensessionKey hash now
      (200, some k,
        { st with sessions := st.sessions ++ [⟨k, u.id, now + sevenDaysMs⟩] })

/-- POST /logout.  When a truthy Session-Key header is presented the
first matching session document is removed; the answer is 200
unconditionally. -/
def logout (st : AppState) (sessionKey : Option String) : Nat × AppState :=
  match sessionKey with
  | some k =>
    if k.isEmpty then (200, st)
    else (200, { st with sessions := st.sessions.eraseP (fun s => s.sessionKey == k) })
  | none => (200, st)

/-- GET /user.  Behind the interceptor; a vanished user answers 401,
otherwise 200 with name, email and the update timestamp. -/
def getUser (st : AppState) (sessionKey : Option String) :
    Nat × Option (String × String × Nat) :=
  match checkLoginInterceptor st sessionKey with
  | none => (401, none)
  | some uid =>
    match st.users.find? (fun u => u.id == uid) with
    | none => (401, none)
    | some u => (200, some (u.name, u.email, u.updateAt))

/-- Rewrites the first document carrying the id of `nu` to `nu`
(the effect of `doc.save()` on the Users collection). -/
def saveUser : List User → User → List User
  | [], _ => []
  | u :: t, nu => if u.id = nu.id then nu :: t else u :: saveUser t nu

/-- Stamps the update timestamp of a document (the effect of
`user.updateAt = new Date()` before the save). -/
def stampUser (u : User) (now : Nat) : User :=
  ⟨u.id, u.name, u.email, u.password, now⟩

/-- The field applications of PATCH /user after the conflict check: the
email (when the branch was entered), then a truthy name, then a truthy
password (rehashed); the boolean is the isUpdate flag. -/
def applyFields (hash : String → String) (user : User) (b : ModifyBody)
    (emailChange : Bool) : User × Bool :=
  let r1 := if emailChange then ({ user with email := b.email.getD "" }, true)
            else (user, false)
  let r2 := if jsTruthy b.name then ({ r1.1 with name := b.name.getD "" }, true)
            else r1
  let r3 := if jsTruthy b.password then
              ({ r2.1 with password := hash (b.password.getD "") }, true)
            else r2
  r3

/-- PATCH /user.  Behind the interceptor; a vanished user answers 401; an
empty body answers 400; changing the email to one another stored user
already carries answers 409 before anything is applied; otherwise the
provided fields are applied, and when any was applied the update
timestamp is stamped to `now` and the document saved; the answer is 200
either way. -/
def patchUser (hash : String → String) (st : AppState)
    (sessionKey : Option String) (body : Option ModifyBody) (now : Nat) :
    Nat × AppState :=
  match checkLoginInterceptor st sessionKey with
  | none => (401, st)
  | some uid =>
    match st.users.find? (fun u => u.id == uid) with
    | none => (401, st)
    | some user =>
      match body with
      | none => (400, st)
      | some b =>
        if b.name.isNone && b.email.isNone && b.password.isNone then (400, st)
        else if (jsTruthy b.email && user.email != b.email.getD "") &&
            (st.users.find? (fun u => u.email == b.email.getD "")).isSome then
          (409, st)
        else if (applyFields hash user b
            (jsTruthy b.email && user.email != b.email.getD "")).2 then
          (200, { st with users :=
                    (saveUser st.users
                      (stampUser (applyFields hash user b
                        (jsTruthy b.email && user.email != b.email.getD "")).1
                        now)) })
        else (200, st)

/-- One inbound request, with the values the environment supplies to it
(clock readings, the id the store assigns to a created user). -/
inductive Op where
  | register (name email password : Option String) (newId now : Nat)
  | login (email password : Option String) (now : Nat)
  | logout (sessionKey : Option String)
  | getUser (sessionKey : Option String)
  | patchUser (sessionKey : Option String) (body : Option ModifyBody) (now : Nat)
  deriving Repr, DecidableEq

/-- The state transition of one request. -/
def step (hash : String → String) (st : AppState) : Op → Nat × AppState
  | .register n e p i t => register hash st n e p i t
  | .login e p t => ((login hash st e p t).1, (login hash st e p t).2.2)
  | .logout k => logout st k
  | .getUser k => ((getUser st k).1, st)
  | .patchUser k b t => patchUser hash st k b t

/-- Runs a sequence of requests, keeping only the store state. -/
def run (hash : String → String) (ops : List Op) (st : AppState) : AppState :=
  ops.foldl (fun s op => (step hash s op).2) st

/-- The Auth Gate accepts a token: the interceptor resolves it to a user
id instead of answering 401. -/
def gateAccepts (st : AppState) (k : String) : Bool :=
  (checkLoginInterceptor st (some k)).isSome

/-- Email uniqueness of a user store: no two documents carry the same
email. -/
def emailsNodup (st : AppState) : Prop :=
  (st.users.map User.email).Nodup

/-- The number of sessions carrying the key `k`. -/
def countKey (k : String) (st : AppState) : Nat :=
  (st.sessions.map Session.sessionKey).count k

/-- A request neither logs out the token `k` nor is a login at an
instant whose generated key is `k`. -/
def keepsToken (hash : String → String) (k : String) : Op → Bool
  | .logout sk => sk != some k
  | .login _ _ t => gensessionKey hash t != k
  | _ => true

/-! Concrete fixtures used by the witness theorems. -/

/-- A concrete stand-in for the digest function in witnesses. -/
def hashEx : String → String := fun s => "H" ++ s

/-- A stored user for witnesses (password digest of "pw" under `hashEx`). -/
def aliceEx : User := ⟨1, "Alice", "a@x", "Hpw", 0⟩

/-- A second stored user for witnesses. -/
def bobEx : User := ⟨2, "Bob", "b@x", "Hpw2", 0⟩

/-- A stored session for witnesses, owned by `aliceEx`, already expired
at any time past 3. -/
def sessEx : Session := ⟨"tok", 1, 3⟩

/-- A populated store for witnesses. -/
def stEx : AppState := ⟨[aliceEx, bobEx], [sessEx]⟩

/-- A one-user store with no sessions, for the lifecycle witnesses. -/
def st0Ex : AppState := ⟨[aliceEx], []⟩

/-- The store after `aliceEx` logs in at instant 5 from `st0Ex`. -/
def st1Ex : AppState := ⟨[aliceEx], [⟨"H5", 1, 5 + sevenDaysMs⟩]⟩

/-! Claim theorems. -/

/-- C1: the Auth Gate fails with 401 when no session token header is
presented, fails with 401 when a token is presented but no Session
record carries it, and on a match attaches the owning user id of the
found session; acceptance never consults the expiry, so a session whose
expiry lies in the past is still accepted while its record exists. -/
theorem c1_auth_gate_contract (st : AppState) (k : String) (s : Session)
    (now : Nat) :
    checkLoginInterceptor st none = none
    ∧ (k ≠ "" → st.sessions.find? (fun x => x.sessionKey == k) = none →
        checkLoginInterceptor st (some k) = none)
    ∧ (k ≠ "" → st.sessions.find? (fun x => x.sessionKey == k) = some s →
        checkLoginInterceptor st (some k) = some s.userId)
    ∧ (k ≠ "" → st.sessions.find? (fun x => x.sessionKey == k) = some s →
        s.expiredAt < now →
        checkLoginInterceptor st (some k) = some s.userId) := by
  refine ⟨rfl, ?_, ?_, ?_⟩
  · intro hk hf
    simp [checkLoginInterceptor, String.isEmpty_iff, hk, hf]
  · intro hk hf
    simp [checkLoginInterceptor, String.isEmpty_iff, hk, hf]
  · intro hk hf _
    simp [checkLoginInterceptor, String.isEmpty_iff, hk, hf]

/-- Witness for C1: in the populated store the expired session with key
"tok" (expiry 3, now 99) is still resolved to user 1. -/
theorem c1_witness : checkLoginInterceptor stEx (some "tok") = some 1 :=
  (c1_auth_gate_contract stEx "tok" sessEx 99).2.2.2 (by decide) (by decide)
    (by decide)

/-- C2: when no stored user matches the email together with the hashed
password — which covers both an unknown email and a known email with a
wrong password — Login answers exactly (404, no token, unchanged
store), so the two failure modes are indistinguishable. -/
theorem c2_login_failure_symmetry (hash : String → String) (st : AppState)
    (e p : String) (now : Nat) (he : e ≠ "") (hp : p ≠ "")
    (h : ∀ u ∈ st.users, ¬(u.email = e ∧ u.password = hash p)) :
    login hash st (some e) (some p) now = (404, none, st) := by
  have hf : st.users.find?
      (fun u => u.email == e && u.password == hash p) = none := by
    rw [List.find?_eq_none]
    intro u hu
    simpa using fun h1 h2 => h u hu ⟨h1, h2⟩
  simp [login, jsTruthy, String.isEmpty_iff, he, hp, hf]

/-- Witness for C2: an unknown email on the populated store. -/
theorem c2_witness :
    login hashEx stEx (some "z@x") (some "pw") 5 = (404, none, stEx) :=
  c2_login_failure_symmetry hashEx stEx "z@x" "pw" 5 (by decide) (by decide)
    (by decide)

/-- C3: Register answers 400 with the store unchanged when any field is
missing or empty, answers 409 with the store unchanged when a stored
user already carries the email, and otherwise appends exactly one user
whose password field is the digest of the given password and answers
200. -/
theorem c3_register_postcondition (hash : String → String) (st : AppState)
    (name email password : Option String) (newId now : Nat) :
    ((jsTruthy name = false ∨ jsTruthy email = false ∨
        jsTruthy password = false) →
      register hash st name email password newId now = (400, st))
    ∧ (∀ n e p, name = some n → email = some e → password = some p →
        n ≠ "" → e ≠ "" → p ≠ "" →
        (((∃ u ∈ st.users, u.email = e) →
            register hash st name email password newId now = (409, st))
         ∧ ((∀ u ∈ st.users, u.email ≠ e) →
            register hash st name email password newId now =
              (200, { st with
                users := st.users ++ [⟨newId, n, e, hash p, now⟩] })))) := by
  constructor
  · intro h
    rcases h with h | h | h <;> simp [register, h]
  · rintro n e p rfl rfl rfl hn he hp
    constructor
    · intro hex
      obtain ⟨u, hu, hue⟩ := hex
      have hs : (st.users.find? (fun u => u.email == e)).isSome := by
        rw [List.find?_isSome]
        exact ⟨u, hu, by simpa using hue⟩
      obtain ⟨w, hw⟩ := Option.isSome_iff_exists.mp hs
      simp [register, jsTruthy, String.isEmpty_iff, hn, he, hp, hw]
    · intro hall
      have hf : st.users.find? (fun u => u.email == e) = none := by
        rw [List.find?_eq_none]
        intro u hu
        simpa using hall u hu
      simp [register, jsTruthy, String.isEmpty_iff, hn, he, hp, hf]

/-- Witness for C3: registering a fresh email on the populated store
appends one user with the hashed password. -/
theorem c3_witness :
    register hashEx stEx (some "Carol") (some "c@x") (some "pw3") 3 7 =
      (200, { stEx with
        users := stEx.users ++ [⟨3, "Carol", "c@x", hashEx "pw3", 7⟩] }) :=
  ((c3_register_postcondition hashEx stEx (some "Carol") (some "c@x")
      (some "pw3") 3 7).2 "Carol" "c@x" "pw3" rfl rfl rfl (by decide)
      (by decide) (by decide)).2 (by decide)

/-- In a session list whose keys are pairwise distinct, nothing in the
result of erasing the first document keyed `k` still carries `k`. -/
lemma eraseP_key_not_mem (k : String) :
    ∀ l : List Session, (l.map Session.sessionKey).Nodup →
      ∀ s ∈ l.eraseP (fun s => s.sessionKey == k), s.sessionKey ≠ k := by
  intro l
  induction l with
  | nil => simp
  | cons a t ih =>
    intro hnd s hs
    simp only [List.map_cons, List.nodup_cons] at hnd
    by_cases ha : a.sessionKey = k
    · rw [List.eraseP_cons_of_pos (by simpa using ha)] at hs
      intro hk
      exact hnd.1 (by
        rw [ha, ← hk]
        exact List.mem_map_of_mem Session.sessionKey hs)
    · rw [List.eraseP_cons_of_neg (by simpa using ha)] at hs
      rcases List.mem_cons.mp hs with rfl | hs
      · exact ha
      · exact ih hnd.2 s hs

/-- C7: Logout always answers 200, running it a second time with the same
header returns the same answer and leaves the session store exactly as
the first call left it, and when a truthy token was presented no session
carrying it survives the first call.  The hypothesis is the uniqueness
of stored session keys, the unique index of the Session schema. -/
theorem c7_logout_idempotent (st : AppState) (tok : Option String)
    (hnd : (st.sessions.map Session.sessionKey).Nodup) :
    (logout st tok).1 = 200
    ∧ logout (logout st tok).2 tok = logout st tok
    ∧ (∀ k, tok = some k → k ≠ "" →
        (logout st tok).2.sessions.find? (fun s => s.sessionKey == k) =
          none) := by
  match tok with
  | none => exact ⟨rfl, rfl, by simp⟩
  | some k =>
    by_cases hk : k = ""
    · subst hk
      refine ⟨by simp [logout, String.isEmpty_iff],
        by simp [logout, String.isEmpty_iff], ?_⟩
      intro k2 heq h2
      injection heq with heq
      exact absurd heq.symm h2
    · have hgone : ∀ s ∈ st.sessions.eraseP (fun s => s.sessionKey == k),
          ¬(s.sessionKey == k) = true := by
        intro s hs
        simpa using eraseP_key_not_mem k st.sessions hnd s hs
      have herase : (st.sessions.eraseP (fun s => s.sessionKey == k)).eraseP
          (fun s => s.sessionKey == k) =
          st.sessions.eraseP (fun s => s.sessionKey == k) :=
        List.eraseP_of_forall_not hgone
      refine ⟨by simp [logout, String.isEmpty_iff, hk], ?_, ?_⟩
      · simp [logout, String.isEmpty_iff, hk, herase]
      · rintro k2 heq h2
        injection heq with heq
        subst heq
        simp only [logout, String.isEmpty_iff, hk]
        rw [List.find?_eq_none]
        simpa [String.isEmpty_iff, hk] using hgone

/-- Witness for C7: logging out the stored token twice. -/
theorem c7_witness :
    (logout stEx (some "tok")).1 = 200
    ∧ logout (logout stEx (some "tok")).2 (some "tok") =
        logout stEx (some "tok")
    ∧ (logout stEx (some "tok")).2.sessions.find?
        (fun s => s.sessionKey == "tok") = none := by
  have h := c7_logout_idempotent stEx (some "tok") (by decide)
  exact ⟨h.1, h.2.1, h.2.2 "tok" rfl (by decide)⟩

/-- C5: behind a resolving gate and an existing user, an update body that
is absent or provides none of name, email, password answers 400 and
leaves the store unchanged. -/
theorem c5_update_empty_body (hash : String → String) (st : AppState)
    (k : String) (uid : Nat) (user : User) (body : Option ModifyBody)
    (now : Nat)
    (hgate : checkLoginInterceptor st (some k) = some uid)
    (huser : st.users.find? (fun u => u.id == uid) = some user)
    (hbody : body = none ∨ body = some ⟨none, none, none⟩) :
    patchUser hash st (some k) body now = (400, st) := by
  rcases hbody with h | h <;> subst h <;> simp [patchUser, hgate, huser]

/-- Witness for C5: an absent body on the populated store. -/
theorem c5_witness : patchUser hashEx stEx (some "tok") none 9 = (400, stEx) :=
  c5_update_empty_body hashEx stEx "tok" 1 aliceEx none 9 (by decide)
    (by decide) (Or.inl rfl)

/-- C6: behind a resolving gate and an existing user, changing the email
to a value another stored document already carries answers 409 and
leaves the whole store — in particular the requesting user record with
its email, name, password and update timestamp — unchanged; the
colliding document carries the requested email and differs from the
requesting user. -/
theorem c6_update_email_conflict (hash : String → String) (st : AppState)
    (k : String) (uid : Nat) (user other : User) (b : ModifyBody)
    (e2 : String) (now : Nat)
    (hgate : checkLoginInterceptor st (some k) = some uid)
    (huser : st.users.find? (fun u => u.id == uid) = some user)
    (hb : b.email = some e2) (he2 : e2 ≠ "") (hne : user.email ≠ e2)
    (hother : st.users.find? (fun u => u.email == e2) = some other) :
    patchUser hash st (some k) (some b) now = (409, st)
    ∧ other.email = e2 ∧ other ≠ user := by
  have hoe : other.email = e2 := by simpa using List.find?_some hother
  refine ⟨?_, hoe, ?_⟩
  · simp [patchUser, hgate, huser, hb, jsTruthy, String.isEmpty_iff, he2,
      hne, hother]
  · intro heq
    rw [heq] at hoe
    exact hne hoe

/-- Witness for C6: user 1 asks for the email of user 2. -/
theorem c6_witness :
    patchUser hashEx stEx (some "tok") (some ⟨none, some "b@x", none⟩) 9 =
      (409, stEx)
    ∧ bobEx.email = "b@x" ∧ bobEx ≠ aliceEx :=
  c6_update_email_conflict hashEx stEx "tok" 1 aliceEx bobEx
    ⟨none, some "b@x", none⟩ "b@x" 9 (by decide) (by decide) rfl (by decide)
    (by decide) (by decide)

/-- C8: behind a resolving gate and an existing user, a body carrying
only a non-empty name answers 200 and persists the found user with only
the name replaced and the update timestamp stamped to now — email and
password digest are carried over unchanged. -/
theorem c8_update_name_frame (hash : String → String) (st : AppState)
    (k : String) (uid : Nat) (user : User) (n : String) (now : Nat)
    (hgate : checkLoginInterceptor st (some k) = some uid)
    (huser : st.users.find? (fun u => u.id == uid) = some user)
    (hn : n ≠ "") :
    patchUser hash st (some k) (some ⟨some n, none, none⟩) now =
      (200, { st with
        users := saveUser st.users
          ⟨user.id, n, user.email, user.password, now⟩ }) := by
  have hni : n.isEmpty = false := by
    cases h : n.isEmpty
    · rfl
    · exact absurd ((String.isEmpty_iff n).mp h) hn
  simp [patchUser, hgate, huser, applyFields, jsTruthy, hni, stampUser]

/-- Witness for C8: renaming user 1 to "Al" at instant 42. -/
theorem c8_witness :
    patchUser hashEx stEx (some "tok") (some ⟨some "Al", none, none⟩) 42 =
      (200, { stEx with
        users := saveUser stEx.users ⟨1, "Al", "a@x", "Hpw", 42⟩ }) :=
  c8_update_name_frame hashEx stEx "tok" 1 aliceEx "Al" 42 (by decide)
    (by decide) (by decide)

/-- Inversion of a successful login: the returned key is the generated
one, the user store is untouched, and exactly one session was appended. -/
lemma login_200_inv (hash : String → String) (st : AppState)
    (e p : Option String) (t : Nat) (k : String) (st2 : AppState)
    (h : login hash st e p t = (200, some k, st2)) :
    k = gensessionKey hash t ∧ st2.users = st.users ∧
      ∃ uid, st2.sessions = st.sessions ++ [⟨k, uid, t + sevenDaysMs⟩] := by
  unfold login at h
  split at h
  · exact absurd (congrArg Prod.fst h) (by simp)
  · split at h
    · exact absurd (congrArg Prod.fst h) (by simp)
    · rename_i u hu
      simp only [Prod.mk.injEq] at h
      obtain ⟨-, hk, hst⟩ := h
      injection hk with hk
      subst hk
      subst hst
      exact ⟨rfl, rfl, u.id, rfl⟩

/-- The login handler never writes the user store. -/
lemma login_users (hash : String → String) (st : AppState)
    (e p : Option String) (t : Nat) :
    (login hash st e p t).2.2.users = st.users := by
  unfold login
  split
  · rfl
  · split <;> rfl

/-- The logout handler never writes the user store. -/
lemma logout_users (st : AppState) (k : Option String) :
    (logout st k).2.users = st.users := by
  cases k with
  | none => rfl
  | some k2 =>
    simp only [logout]
    split <;> rfl

/-- The register handler never writes the session store. -/
lemma register_sessions (hash : String → String) (st : AppState)
    (n e p : Option String) (i t : Nat) :
    (register hash st n e p i t).2.sessions = st.sessions := by
  unfold register
  split
  · rfl
  · split <;> rfl

/-- The patch handler never writes the session store. -/
lemma patchUser_sessions (hash : String → String) (st : AppState)
    (sk : Option String) (body : Option ModifyBody) (now : Nat) :
    (patchUser hash st sk body now).2.sessions = st.sessions := by
  unfold patchUser
  split
  · rfl
  split
  · rfl
  split
  · rfl
  split
  · rfl
  split
  · rfl
  split <;> rfl

/-- The applied fields keep the document id. -/
lemma applyFields_fst_id (hash : String → String) (user : User)
    (b : ModifyBody) (ec : Bool) :
    (applyFields hash user b ec).1.id = user.id := by
  cases ec <;> cases hn : jsTruthy b.name <;> cases hp : jsTruthy b.password
    <;> simp [applyFields, hn, hp]

/-- The email of the applied fields: the requested one when the email
branch was entered, the stored one otherwise. -/
lemma applyFields_fst_email (hash : String → String) (user : User)
    (b : ModifyBody) (ec : Bool) :
    (applyFields hash user b ec).1.email =
      if ec then b.email.getD "" else user.email := by
  cases ec <;> cases hn : jsTruthy b.name <;> cases hp : jsTruthy b.password
    <;> simp [applyFields, hn, hp]

/-- Projection of the stamped document: the id is kept. -/
lemma stampUser_id (u : User) (now : Nat) : (stampUser u now).id = u.id := rfl

/-- Projection of the stamped document: the email is kept. -/
lemma stampUser_email (u : User) (now : Nat) :
    (stampUser u now).email = u.email := rfl

/-- Every email in the rewritten store is the new one or an old one. -/
lemma saveUser_map_email_subset (nu : User) :
    ∀ l : List User, ∀ x ∈ (saveUser l nu).map User.email,
      x = nu.email ∨ x ∈ l.map User.email := by
  intro l
  induction l with
  | nil => simp [saveUser]
  | cons u t ih =>
    intro x hx
    by_cases h : u.id = nu.id
    · rw [saveUser, if_pos h] at hx
      simp only [List.map_cons, List.mem_cons] at hx
      rcases hx with rfl | hx
      · exact Or.inl rfl
      · exact Or.inr (by simp only [List.map_cons, List.mem_cons]; exact Or.inr hx)
    · rw [saveUser, if_neg h] at hx
      simp only [List.map_cons, List.mem_cons] at hx
      rcases hx with rfl | hx
      · exact Or.inr (by simp)
      · rcases ih x hx with h2 | h2
        · exact Or.inl h2
        · exact Or.inr (by simp only [List.map_cons, List.mem_cons]; exact Or.inr h2)

/-- Rewriting the first document with the id of `nu` keeps emails
pairwise distinct, provided the new email is the one that document
already carried or is fresh for the whole store. -/
lemma saveUser_email_nodup (nu user : User) :
    ∀ l : List User, (l.map User.email).Nodup →
      l.find? (fun u => u.id == nu.id) = some user →
      (nu.email = user.email ∨ nu.email ∉ l.map User.email) →
      ((saveUser l nu).map User.email).Nodup := by
  intro l
  induction l with
  | nil => simp [saveUser]
  | cons u t ih =>
    intro hnd hfind hcase
    simp only [List.map_cons, List.nodup_cons] at hnd
    by_cases h : u.id = nu.id
    · rw [List.find?_cons_of_pos _ (by simpa using h)] at hfind
      injection hfind with hfind
      subst hfind
      rw [saveUser, if_pos h]
      simp only [List.map_cons, List.nodup_cons]
      rcases hcase with hcase | hcase
      · rw [hcase]
        exact ⟨hnd.1, hnd.2⟩
      · simp only [List.map_cons, List.mem_cons] at hcase
        push_neg at hcase
        exact ⟨hcase.2, hnd.2⟩
    · rw [List.find?_cons_of_neg _ (by simpa using h)] at hfind
      have huser : user ∈ t := List.mem_of_find?_eq_some hfind
      rw [saveUser, if_neg h]
      simp only [List.map_cons, List.nodup_cons]
      constructor
      · intro hmem
        rcases saveUser_map_email_subset nu t u.email hmem with heq | hmem2
        · rcases hcase with hc | hc
          · exact hnd.1 (by
              rw [heq, hc]
              exact List.mem_map_of_mem User.email huser)
          · exact hc (by
              simp only [List.map_cons, List.mem_cons]
              exact Or.inl heq.symm)
        · exact hnd.1 hmem2
      · apply ih hnd.2 hfind
        rcases hcase with hc | hc
        · exact Or.inl hc
        · refine Or.inr fun hmem => hc ?_
          simp only [List.map_cons, List.mem_cons]
          exact Or.inr hmem

/-- PATCH /user preserves email uniqueness: a refused conflict leaves the
store alone, and an applied change either keeps the stored email or
moves to an email no stored document carries. -/
lemma patchUser_emailsNodup (hash : String → String) (st : AppState)
    (sk : Option String) (body : Option ModifyBody) (now : Nat)
    (h : emailsNodup st) : emailsNodup (patchUser hash st sk body now).2 := by
  unfold patchUser
  split
  · exact h
  rename_i uid hgate
  split
  · exact h
  rename_i user hfind
  split
  · exact h
  rename_i b
  split
  · exact h
  split
  · exact h
  rename_i hnotconf
  split
  · rename_i hupd
    have huid : user.id = uid := by simpa using List.find?_some hfind
    unfold emailsNodup
    dsimp only
    apply saveUser_email_nodup _ user _ h
    · have hid : (stampUser (applyFields hash user b
          (jsTruthy b.email && user.email != b.email.getD "")).1 now).id =
          uid := by
        rw [stampUser_id, applyFields_fst_id, huid]
      rw [hid]
      exact hfind
    · by_cases hec :
        (jsTruthy b.email && user.email != b.email.getD "") = true
      · refine Or.inr ?_
        have hfone : st.users.find? (fun u => u.email == b.email.getD "") =
            none := by
          cases hx : st.users.find? (fun u => u.email == b.email.getD "") with
          | none => rfl
          | some w =>
            exfalso
            apply hnotconf
            rw [hec, hx]
            simp
        rw [List.find?_eq_none] at hfone
        have hemail : (stampUser (applyFields hash user b
            (jsTruthy b.email && user.email != b.email.getD "")).1 now).email =
            b.email.getD "" := by
          rw [stampUser_email, applyFields_fst_email, if_pos hec]
        rw [hemail]
        intro hmem
        obtain ⟨u2, hu2, hu2e⟩ := List.mem_map.mp hmem
        exact (hfone u2 hu2) (by simp [hu2e])
      · refine Or.inl ?_
        rw [stampUser_email, applyFields_fst_email, if_neg hec]
  · exact h

/-- POST /register preserves email uniqueness: it only appends a user
whose email no stored document carries. -/
lemma register_emailsNodup (hash : String → String) (st : AppState)
    (n e p : Option String) (i t : Nat) (h : emailsNodup st) :
    emailsNodup (register hash st n e p i t).2 := by
  unfold register
  split
  · exact h
  split
  · exact h
  rename_i hf
  unfold emailsNodup at h ⊢
  dsimp only
  rw [List.map_append, List.nodup_append]
  refine ⟨h, by simp, ?_⟩
  intro x hx hx2
  simp only [List.map_cons, List.map_nil, List.mem_cons, List.not_mem_nil,
    or_false] at hx2
  subst hx2
  rw [List.find?_eq_none] at hf
  obtain ⟨u, hu, hue⟩ := List.mem_map.mp hx
  exact hf u hu (by simpa using hue)

/-- Every request preserves email uniqueness of the user store. -/
lemma step_emailsNodup (hash : String → String) (st : AppState) (op : Op)
    (h : emailsNodup st) : emailsNodup (step hash st op).2 := by
  cases op with
  | register n e p i t => exact register_emailsNodup hash st n e p i t h
  | login e p t =>
    show ((login hash st e p t).2.2.users.map User.email).Nodup
    rw [login_users]
    exact h
  | logout k =>
    show ((logout st k).2.users.map User.email).Nodup
    rw [logout_users]
    exact h
  | getUser k => exact h
  | patchUser k b t => exact patchUser_emailsNodup hash st k b t h

/-- C9: starting from any store whose emails are pairwise distinct — in
particular the empty store — every sequence of requests, Register and
UpdateProfile included, leads only to stores whose emails are pairwise
distinct. -/
theorem c9_email_uniqueness_invariant (hash : String → String)
    (ops : List Op) (st : AppState) (h : emailsNodup st) :
    emailsNodup (run hash ops st) := by
  induction ops generalizing st with
  | nil => exact h
  | cons op t ih =>
    unfold run
    rw [List.foldl_cons]
    exact ih (step hash st op).2 (step_emailsNodup hash st op h)

/-- Witness for C9: a duplicate registration attempt from the empty
store still leaves distinct emails. -/
theorem c9_witness :
    emailsNodup (run hashEx
      [Op.register (some "A") (some "a@x") (some "p") 1 0,
       Op.register (some "B") (some "a@x") (some "p2") 2 1] ⟨[], []⟩) :=
  c9_email_uniqueness_invariant hashEx
    [Op.register (some "A") (some "a@x") (some "p") 1 0,
     Op.register (some "B") (some "a@x") (some "p2") 2 1] ⟨[], []⟩
    List.nodup_nil

/-- Erasing the first session keyed by a different string never changes
how many sessions carry `k`. -/
lemma countKey_eraseP_ne (k k2 : String) (hne : k2 ≠ k) :
    ∀ l : List Session,
      ((l.eraseP (fun s => s.sessionKey == k2)).map Session.sessionKey).count k
        = (l.map Session.sessionKey).count k := by
  intro l
  induction l with
  | nil => simp
  | cons a t ih =>
    by_cases ha : a.sessionKey = k2
    · rw [List.eraseP_cons_of_pos (by simpa using ha)]
      simp [List.count_cons, ha, hne]
    · rw [List.eraseP_cons_of_neg (by simpa using ha)]
      simp only [List.map_cons, List.count_cons, ih]

/-- Erasing the first session keyed `k` lowers the number of sessions
carrying `k` by one. -/
lemma countKey_eraseP_self (k : String) :
    ∀ l : List Session,
      ((l.eraseP (fun s => s.sessionKey == k)).map Session.sessionKey).count k
        = (l.map Session.sessionKey).count k - 1 := by
  intro l
  induction l with
  | nil => simp
  | cons a t ih =>
    by_cases ha : a.sessionKey = k
    · rw [List.eraseP_cons_of_pos (by simpa using ha)]
      simp [List.count_cons, ha]
    · rw [List.eraseP_cons_of_neg (by simpa using ha)]
      simp only [List.map_cons, List.count_cons, ih]
      simp only [beq_iff_eq, ha, if_false]
      omega

/-- A request that neither logs out `k` nor regenerates `k` keeps the
number of sessions carrying `k` unchanged. -/
lemma step_countKey (hash : String → String) (k : String) (st : AppState)
    (op : Op) (hop : keepsToken hash k op = true) :
    countKey k (step hash st op).2 = countKey k st := by
  cases op with
  | register n e p i t =>
    show countKey k (register hash st n e p i t).2 = countKey k st
    unfold countKey
    rw [register_sessions]
  | login e p t =>
    have hne : gensessionKey hash t ≠ k := by simpa [keepsToken] using hop
    show countKey k (login hash st e p t).2.2 = countKey k st
    unfold login countKey
    split
    · rfl
    split
    · rfl
    rename_i u hu
    dsimp only
    rw [List.map_append, List.count_append]
    have : ¬(gensessionKey hash t == k) = true := by simpa using hne
    simp [List.count_cons, this]
  | logout sk =>
    show countKey k (logout st sk).2 = countKey k st
    cases sk with
    | none => rfl
    | some k2 =>
      have hne : k2 ≠ k := by simpa [keepsToken] using hop
      simp only [logout]
      split
      · rfl
      · unfold countKey
        dsimp only
        exact countKey_eraseP_ne k k2 hne st.sessions
  | getUser sk => rfl
  | patchUser sk b t =>
    show countKey k (patchUser hash st sk b t).2 = countKey k st
    unfold countKey
    rw [patchUser_sessions]

/-- A whole trace of requests that neither log out `k` nor regenerate
`k` keeps the number of sessions carrying `k` unchanged. -/
lemma run_countKey (hash : String → String) (k : String) (ops : List Op) :
    ∀ st : AppState, (∀ op ∈ ops, keepsToken hash k op = true) →
      countKey k (run hash ops st) = countKey k st := by
  induction ops with
  | nil => intro st _; rfl
  | cons op t ih =>
    intro st hops
    unfold run
    rw [List.foldl_cons]
    have h2 := ih (step hash st op).2 (fun o ho => hops o (by simp [ho]))
    exact h2.trans (step_countKey hash k st op (hops op (by simp)))

/-- The Auth Gate accepts a non-empty token exactly when some session
carries it. -/
lemma gateAccepts_iff (st : AppState) (k : String) (hk : k ≠ "") :
    gateAccepts st k = true ↔ 0 < countKey k st := by
  have hke : k.isEmpty = false := by
    cases h : k.isEmpty
    · rfl
    · exact absurd ((String.isEmpty_iff k).mp h) hk
  unfold gateAccepts checkLoginInterceptor countKey
  cases hf : st.sessions.find? (fun s => s.sessionKey == k) with
  | none =>
    simp only [hke, Bool.false_eq_true, if_false, hf, Option.isSome_none]
    rw [List.find?_eq_none] at hf
    constructor
    · intro h
      exact absurd h (by simp)
    · intro h
      exfalso
      obtain ⟨s2, hs2, hkey⟩ := List.mem_map.mp (List.count_pos_iff.mp h)
      have hne2 : s2.sessionKey ≠ k := by simpa using hf s2 hs2
      exact hne2 hkey
  | some s =>
    simp only [hke, Bool.false_eq_true, if_false, hf, Option.isSome_some]
    have hmem : k ∈ st.sessions.map Session.sessionKey := by
      have h1 : s ∈ st.sessions := List.mem_of_find?_eq_some hf
      have h2 : s.sessionKey = k := by simpa using List.find?_some hf
      rw [← h2]
      exact List.mem_map_of_mem Session.sessionKey h1
    simp [List.count_pos_iff.mpr hmem]

/-- C4: a token returned by a successful login is accepted by the Auth
Gate immediately and after any trace of requests that neither log the
token out nor happen to regenerate the same key; after a logout
presenting that token the gate rejects it, and keeps rejecting it
through any further such trace.  The freshness hypothesis mirrors the
unique index of the Session schema, and the non-regeneration hypothesis
mirrors the strictly advancing clock behind the token generator. -/
theorem c4_session_token_lifecycle (hash : String → String)
    (st0 st1 : AppState) (e p : Option String) (t : Nat) (k : String)
    (ops1 ops2 : List Op)
    (hlogin : login hash st0 e p t = (200, some k, st1))
    (hk : k ≠ "")
    (hfresh : k ∉ st0.sessions.map Session.sessionKey)
    (h1 : ∀ op ∈ ops1, keepsToken hash k op = true)
    (h2 : ∀ op ∈ ops2, keepsToken hash k op = true) :
    gateAccepts st1 k = true
    ∧ gateAccepts (run hash ops1 st1) k = true
    ∧ gateAccepts (logout (run hash ops1 st1) (some k)).2 k = false
    ∧ gateAccepts
        (run hash ops2 (logout (run hash ops1 st1) (some k)).2) k = false := by
  obtain ⟨hkgen, -, uid, hs⟩ := login_200_inv hash st0 e p t k st1 hlogin
  have hke : k.isEmpty = false := by
    cases h : k.isEmpty
    · rfl
    · exact absurd ((String.isEmpty_iff k).mp h) hk
  have hc0 : countKey k st0 = 0 := by
    unfold countKey
    rw [List.count_eq_zero]
    exact hfresh
  have hc1 : countKey k st1 = 1 := by
    unfold countKey
    rw [hs, List.map_append, List.count_append]
    unfold countKey at hc0
    simp [hc0, List.count_cons]
  have hrc1 : countKey k (run hash ops1 st1) = 1 := by
    rw [run_countKey hash k ops1 st1 h1, hc1]
  have hafter : countKey k (logout (run hash ops1 st1) (some k)).2 = 0 := by
    simp only [logout, hke, Bool.false_eq_true, if_false]
    unfold countKey
    dsimp only
    rw [countKey_eraseP_self]
    unfold countKey at hrc1
    rw [hrc1]
  have hrc2 : countKey k
      (run hash ops2 (logout (run hash ops1 st1) (some k)).2) = 0 := by
    rw [run_countKey hash k ops2 _ h2, hafter]
  refine ⟨?_, ?_, ?_, ?_⟩
  · exact (gateAccepts_iff st1 k hk).mpr (by rw [hc1]; exact Nat.one_pos)
  · exact (gateAccepts_iff _ k hk).mpr (by rw [hrc1]; exact Nat.one_pos)
  · rw [Bool.eq_false_iff]
    intro hga
    have := (gateAccepts_iff _ k hk).mp hga
    rw [hafter] at this
    exact absurd this (by simp)
  · rw [Bool.eq_false_iff]
    intro hga
    have := (gateAccepts_iff _ k hk).mp hga
    rw [hrc2] at this
    exact absurd this (by simp)

/-- Witness for C4: the token from the concrete login at instant 5 is
accepted, survives an unrelated logout, and dies with its own logout. -/
theorem c4_witness :
    gateAccepts st1Ex "H5" = true
    ∧ gateAccepts (run hashEx [Op.logout (some "zzz")] st1Ex) "H5" = true
    ∧ gateAccepts
        (logout (run hashEx [Op.logout (some "zzz")] st1Ex) (some "H5")).2
        "H5" = false
    ∧ gateAccepts
        (run hashEx [Op.getUser (some "H5")]
          (logout (run hashEx [Op.logout (some "zzz")] st1Ex)
            (some "H5")).2) "H5" = false :=
  c4_session_token_lifecycle hashEx st0Ex st1Ex (some "a@x") (some "pw") 5
    "H5" [Op.logout (some "zzz")] [Op.getUser (some "H5")] (by decide)
    (by decide) (by decide) (by decide) (by decide)

/-- C10: two successful logins at the same millisecond return
character-for-character identical session tokens, and the second one
appends a session whose key collides with a session already stored. -/
theorem c10_same_millisecond_token_collision (hash : String → String)
    (st st1 st2 : AppState) (e p e2 p2 : Option String) (t : Nat)
    (k1 k2 : String)
    (h1 : login hash st e p t = (200, some k1, st1))
    (h2 : login hash st1 e2 p2 t = (200, some k2, st2)) :
    k1 = k2 ∧ ∃ s ∈ st1.sessions, s.sessionKey = k2 := by
  obtain ⟨hk1, -, uid1, hs1⟩ := login_200_inv hash st e p t k1 st1 h1
  obtain ⟨hk2, -, uid2, hs2⟩ := login_200_inv hash st1 e2 p2 t k2 st2 h2
  subst hk1
  subst hk2
  refine ⟨rfl, ⟨gensessionKey hash t, uid1, t + sevenDaysMs⟩, ?_, rfl⟩
  rw [hs1]
  simp

/-- Witness for C10: logging in twice at instant 5 from the one-user
store issues the token "H5" both times, the second colliding with the
stored session. -/
theorem c10_witness :
    "H5" = "H5" ∧ ∃ s ∈ st1Ex.sessions, s.sessionKey = "H5" :=
  c10_same_millisecond_token_collision hashEx st0Ex st1Ex
    ⟨[aliceEx], [⟨"H5", 1, 5 + sevenDaysMs⟩, ⟨"H5", 1, 5 + sevenDaysMs⟩]⟩
    (some "a@x") (some "pw") (some "a@x") (some "pw") 5 "H5" "H5"
    (by decide) (by decide)

end ApiExercise
